import Mathlib

/-!
Verification of the vehicle-maintenance record tracker
(`app/services/service_logic.py`, `app/crud.py`, `app/models.py`).

Timestamps are modelled at one-second resolution by a `DateTime` structure
mirroring Python's `datetime` components; date arithmetic goes through the
proleptic-Gregorian civil-date/day-number conversions, exactly the calendar
`datetime` implements.  `datetime.utcnow()` is threaded as an explicit `now`
parameter, following the spec's design note.
-/

namespace VehicleService

/-- Python `datetime` at second resolution: calendar components. -/
structure DateTime where
  year : Int
  month : Int
  day : Int
  hour : Int
  minute : Int
  second : Int
deriving DecidableEq, Repr

/-- Day number of a civil date in the proleptic Gregorian calendar
(days since 1970-01-01), the calendar Python's `datetime` uses. -/
def daysFromCivil (y m d : Int) : Int :=
  let y' := if m ≤ 2 then y - 1 else y
  let era := y'.fdiv 400
  let yoe := y' - era * 400
  let mp := (m + 9).emod 12
  let doy := (153 * mp + 2).fdiv 5 + d - 1
  let doe := yoe * 365 + yoe.fdiv 4 - yoe.fdiv 100 + doy
  era * 146097 + doe - 719468

/-- Civil date (year, month, day) of a day number since 1970-01-01. -/
def civilFromDays (z : Int) : Int × Int × Int :=
  let z' := z + 719468
  let era := z'.fdiv 146097
  let doe := z' - era * 146097
  let yoe := (doe - doe.fdiv 1460 + doe.fdiv 36524 - doe.fdiv 146096).fdiv 365
  let y := yoe + era * 400
  let doy := doe - (365 * yoe + yoe.fdiv 4 - yoe.fdiv 100)
  let mp := (5 * doy + 2).fdiv 153
  let d := doy - (153 * mp + 2).fdiv 5 + 1
  let m := if mp < 10 then mp + 3 else mp - 9
  (if m ≤ 2 then y + 1 else y, m, d)

/-- Seconds since the epoch; `datetime` subtraction and comparison reduce to
this linear scale. -/
def DateTime.toSecs (dt : DateTime) : Int :=
  daysFromCivil dt.year dt.month dt.day * 86400
    + dt.hour * 3600 + dt.minute * 60 + dt.second

/-- Python `dt + timedelta(days=n)`: shifts the civil date, keeps the time of
day. -/
def DateTime.addDays (dt : DateTime) (n : Int) : DateTime :=
  let c := civilFromDays (daysFromCivil dt.year dt.month dt.day + n)
  ⟨c.1, c.2.1, c.2.2, dt.hour, dt.minute, dt.second⟩

/-- `calculate_service_status` (`service_logic.py` lines 10-28), with
`datetime.utcnow()` threaded as the explicit parameter `now`.
`(next_service_date - now).days` is Python `timedelta.days`: the whole-day
count floored toward negative infinity, i.e. `Int.fdiv` by 86400. -/
def calculate_service_status (next_service_date now : DateTime) : String × Int :=
  let days_until_due := (next_service_date.toSecs - now.toSecs).fdiv 86400
  if days_until_due < 0 then
    ("OVERDUE", days_until_due)
  else if days_until_due ≤ 7 then
    ("DUE", days_until_due)
  else
    ("UPCOMING", days_until_due)

/-- A row of the `vehicles` table (`models.py`). -/
structure Vehicle where
  id : Int
  vehicle_number : String
  owner_name : String
  model : String
  created_at : DateTime
deriving DecidableEq, Repr

/-- A row of the `service_types` table (`models.py`). -/
structure ServiceType where
  id : Int
  name : String
  interval_days : Int
deriving DecidableEq, Repr

/-- A `service_records` row with its `vehicle` and `service_type`
relationships resolved, as the ORM presents it to the logic layer. -/
structure ServiceRecord where
  id : Int
  vehicle_id : Int
  service_type_id : Int
  service_date : DateTime
  next_service_date : DateTime
  notes : Option String
  created_at : DateTime
  vehicle : Vehicle
  service_type : ServiceType
deriving DecidableEq, Repr

/-- `schemas.VehicleResponse`. -/
structure VehicleResponse where
  id : Int
  vehicle_number : String
  owner_name : String
  model : String
  created_at : DateTime
deriving DecidableEq, Repr

/-- `schemas.ServiceRecordDetailResponse`. -/
structure ServiceRecordDetailResponse where
  id : Int
  vehicle_id : Int
  vehicle_number : String
  owner_name : String
  model : String
  service_type_id : Int
  service_type_name : String
  service_date : DateTime
  next_service_date : DateTime
  notes : Option String
  status : String
  days_until_due : Int
deriving DecidableEq, Repr

/-- `schemas.ServiceHistoryResponse`. -/
structure ServiceHistoryResponse where
  vehicle : VehicleResponse
  service_records : List ServiceRecordDetailResponse
deriving DecidableEq, Repr

/-- `VehicleResponse.from_orm` (`schemas.py`): copies the vehicle's public
fields. -/
def VehicleResponse.from_orm (v : Vehicle) : VehicleResponse :=
  ⟨v.id, v.vehicle_number, v.owner_name, v.model, v.created_at⟩

/-- `build_service_detail_response` (`service_logic.py` lines 30-52), with
the clock threaded as `now`. -/
def build_service_detail_response (service_record : ServiceRecord)
    (now : DateTime) : ServiceRecordDetailResponse :=
  let sd := calculate_service_status service_record.next_service_date now
  { id := service_record.id
    vehicle_id := service_record.vehicle_id
    vehicle_number := service_record.vehicle.vehicle_number
    owner_name := service_record.vehicle.owner_name
    model := service_record.vehicle.model
    service_type_id := service_record.service_type_id
    service_type_name := service_record.service_type.name
    service_date := service_record.service_date
    next_service_date := service_record.next_service_date
    notes := service_record.notes
    status := sd.1
    days_until_due := sd.2 }

/-- `build_service_history` (`service_logic.py` lines 54-70). -/
def build_service_history (vehicle : Vehicle)
    (service_records : List ServiceRecord) (now : DateTime) :
    ServiceHistoryResponse :=
  { vehicle := VehicleResponse.from_orm vehicle
    service_records :=
      service_records.map (fun record => build_service_detail_response record now) }

/-- Two-digit zero-padded field of `strftime`. -/
def pad2 (n : Int) : String :=
  if n < 10 then "0" ++ toString n else toString n

/-- Four-digit zero-padded year field of `strftime`. -/
def pad4 (n : Int) : String :=
  if n < 10 then "000" ++ toString n
  else if n < 100 then "00" ++ toString n
  else if n < 1000 then "0" ++ toString n
  else toString n

/-- `dt.strftime("%Y-%m-%d %H:%M:%S")`. -/
def formatDateTime (dt : DateTime) : String :=
  pad4 dt.year ++ "-" ++ pad2 dt.month ++ "-" ++ pad2 dt.day ++ " "
    ++ pad2 dt.hour ++ ":" ++ pad2 dt.minute ++ ":" ++ pad2 dt.second

/-- `csv.writer` QUOTE_MINIMAL: a field is quoted iff it contains the
delimiter, the quote character, or a line-terminator character. -/
def needsQuote (s : String) : Bool :=
  s.data.any (fun c => c == ',' || c == '"' || c == '\r' || c == '\n')

/-- `csv.writer` doubles each quote character inside a quoted field. -/
def escapeQuotes : List Char → List Char
  | [] => []
  | c :: cs => if c = '"' then '"' :: '"' :: escapeQuotes cs else c :: escapeQuotes cs

/-- One encoded `csv.writer` field. -/
def encodeField (s : String) : String :=
  if needsQuote s then "\"" ++ String.mk (escapeQuotes s.data) ++ "\"" else s

/-- Encoded fields joined by the `,` delimiter. -/
def joinEncoded : List String → String
  | [] => ""
  | [f] => encodeField f
  | f :: g :: fs => encodeField f ++ "," ++ joinEncoded (g :: fs)

/-- `csv.writer.writerow`: delimiter-joined encoded fields plus the default
`\r\n` line terminator, appended to the output buffer. -/
def csvLine (fields : List String) : String :=
  joinEncoded fields ++ "\r\n"

/-- The header row written by `generate_csv_data` (`service_logic.py`
lines 83-94). -/
def csvHeaderFields : List String :=
  ["Service ID", "Vehicle Number", "Owner Name", "Model", "Service Type",
   "Service Date", "Next Service Date", "Status", "Days Until Due", "Notes"]

/-- The data row `generate_csv_data` writes for one record
(`service_logic.py` lines 97-110).  `record.notes or ""` renders a missing
note — and equally an empty one — as the empty string, i.e. `Option.getD`. -/
def recordRowFields (record : ServiceRecord) (now : DateTime) : List String :=
  let sd := calculate_service_status record.next_service_date now
  [toString record.id,
   record.vehicle.vehicle_number,
   record.vehicle.owner_name,
   record.vehicle.model,
   record.service_type.name,
   formatDateTime record.service_date,
   formatDateTime record.next_service_date,
   sd.1,
   toString sd.2,
   record.notes.getD ""]

/-- The data rows of `generate_csv_data`, in input order. -/
def csvBody (service_records : List ServiceRecord) (now : DateTime) : String :=
  match service_records with
  | [] => ""
  | record :: rest => csvLine (recordRowFields record now) ++ csvBody rest now

/-- `generate_csv_data` (`service_logic.py` lines 72-113), with the clock
threaded as `now`. -/
def generate_csv_data (service_records : List ServiceRecord) (now : DateTime) :
    String :=
  csvLine csvHeaderFields ++ csvBody service_records now

/-- Parser mode: outside quotes, inside quotes, just saw a quote inside a
quoted field, or just saw a carriage return outside quotes. -/
inductive PMode
  | plain
  | quoted
  | qquote
  | cr
deriving DecidableEq, Repr

/-- Parser state: emitted rows, current row's fields (reversed), current
field's characters (reversed), and the mode. -/
structure PState where
  rows : List (List String)
  cur : List String
  field : List Char
  mode : PMode
deriving Repr

/-- End the current field. -/
def pushField (st : PState) : PState :=
  { st with cur := String.mk st.field.reverse :: st.cur, field := [] }

/-- End the current row. -/
def pushRow (st : PState) : PState :=
  { st with rows := st.rows ++ [(String.mk st.field.reverse :: st.cur).reverse],
            cur := [], field := [], mode := .plain }

/-- One character outside quotes: delimiter ends the field, a line
terminator ends the row, a quote at field start opens a quoted field. -/
def stepPlain (st : PState) (c : Char) : PState :=
  if c = ',' then pushField st
  else if c = '\n' then pushRow st
  else if c = '\r' then { st with mode := .cr }
  else if c = '"' ∧ st.field = [] then { st with mode := .quoted }
  else { st with field := c :: st.field }

/-- Modelled from the spec: the repository contains no CSV reader — only the
serializer — so "parsing the generated text" is modelled here as a standard
CSV reader: comma-delimited fields, rows ended by CR, LF or CRLF, quoted
fields with doubled quotes for literal quote characters. -/
def step (st : PState) (c : Char) : PState :=
  match st.mode with
  | .plain => stepPlain st c
  | .cr =>
      if c = '\n' then pushRow { st with mode := .plain }
      else stepPlain (pushRow { st with mode := .plain }) c
  | .quoted =>
      if c = '"' then { st with mode := .qquote }
      else { st with field := c :: st.field }
  | .qquote =>
      if c = '"' then { st with field := '"' :: st.field, mode := .quoted }
      else stepPlain { st with mode := .plain } c

/-- End of input: emit the pending row unless nothing is pending. -/
def finalize (st : PState) : List (List String) :=
  if st.mode = .plain ∧ st.field = [] ∧ st.cur = [] then st.rows
  else (pushRow st).rows

/-- Modelled from the spec: parse CSV text into its rows of fields. -/
def parseCSV (s : String) : List (List String) :=
  finalize (s.data.foldl step ⟨[], [], [], .plain⟩)

/-- A `service_records` table row as stored (`models.py`), without the ORM
joins resolved. -/
structure StoredServiceRecord where
  id : Int
  vehicle_id : Int
  service_type_id : Int
  service_date : DateTime
  next_service_date : DateTime
  notes : Option String
deriving DecidableEq, Repr

/-- The relational store: the three tables plus the autoincrement counter
for service-record primary keys. -/
structure Store where
  vehicles : List Vehicle
  service_types : List ServiceType
  service_records : List StoredServiceRecord
  next_record_id : Int
deriving DecidableEq, Repr

/-- `schemas.ServiceRecordCreate`. -/
structure ServiceRecordCreate where
  vehicle_id : Int
  service_type_id : Int
  service_date : DateTime
  notes : Option String
deriving DecidableEq, Repr

/-- `crud.get_service_type`: `.filter(ServiceType.id == id).first()`. -/
def get_service_type (db : Store) (service_type_id : Int) : Option ServiceType :=
  db.service_types.find? (fun st => st.id == service_type_id)

/-- `crud.get_vehicle`: `.filter(Vehicle.id == id).first()`. -/
def get_vehicle (db : Store) (vehicle_id : Int) : Option Vehicle :=
  db.vehicles.find? (fun v => v.id == vehicle_id)

/-- `crud.create_service_record` (`crud.py` lines 69-93): looks up the
ServiceType, raises `ValueError` naming the identifier when it is missing —
before touching the store — and otherwise computes
`next_service_date = service_date + timedelta(days=interval_days)` and
inserts the new row. -/
def create_service_record (db : Store) (service_record : ServiceRecordCreate) :
    Except String (StoredServiceRecord × Store) :=
  match get_service_type db service_record.service_type_id with
  | none =>
      .error ("Service type " ++ toString service_record.service_type_id ++ " not found")
  | some service_type =>
      let next_service := service_record.service_date.addDays service_type.interval_days
      let db_service_record : StoredServiceRecord :=
        { id := db.next_record_id
          vehicle_id := service_record.vehicle_id
          service_type_id := service_record.service_type_id
          service_date := service_record.service_date
          next_service_date := next_service
          notes := service_record.notes }
      .ok (db_service_record,
        { db with
          service_records := db.service_records ++ [db_service_record],
          next_record_id := db.next_record_id + 1 })

/-- The store after `create_service_record`: a raised `ValueError` aborts
before any insertion or commit, leaving the store as it was. -/
def create_service_record_state (db : Store)
    (service_record : ServiceRecordCreate) : Store :=
  match create_service_record db service_record with
  | .error _ => db
  | .ok (_, db') => db'

/-- Modelled from the spec: the repository exposes no operation that edits a
ServiceType's `interval_days` ("not recomputed if the ServiceType's interval
later changes"); this models such a later change, rewriting only the
`service_types` table. -/
def update_service_type_interval (db : Store)
    (service_type_id newInterval : Int) : Store :=
  { db with
    service_types := db.service_types.map (fun st =>
      if st.id = service_type_id then { st with interval_days := newInterval } else st) }

/-- `crud.get_upcoming_services` (`crud.py` lines 118-130), with
`datetime.utcnow()` threaded as `now`: the rows with
`now <= next_service_date <= now + timedelta(days=days_ahead)`, ordered by
`next_service_date` ascending. -/
def get_upcoming_services (db : Store) (days_ahead : Int) (now : DateTime) :
    List StoredServiceRecord :=
  let future := now.addDays days_ahead
  (db.service_records.filter (fun r =>
      decide (now.toSecs ≤ r.next_service_date.toSecs)
        && decide (r.next_service_date.toSecs ≤ future.toSecs))).insertionSort
    (fun a b => a.next_service_date.toSecs ≤ b.next_service_date.toSecs)

instance : IsTotal StoredServiceRecord
    (fun a b => a.next_service_date.toSecs ≤ b.next_service_date.toSecs) :=
  ⟨fun _ _ => le_total _ _⟩

instance : IsTrans StoredServiceRecord
    (fun a b => a.next_service_date.toSecs ≤ b.next_service_date.toSecs) :=
  ⟨fun _ _ _ => le_trans⟩

end VehicleService

namespace VehicleService

/-- C1: for every due-date and current timestamp, the status calculator
returns the floored whole-day count `(due - now).fdiv 86400` as its second
component, and the label OVERDUE when that count is `< 0`, DUE when it is
between 0 and 7 inclusive, and UPCOMING when it is `> 7`. -/
theorem calculate_service_status_cases (due now : DateTime) :
    (calculate_service_status due now).2 = (due.toSecs - now.toSecs).fdiv 86400
    ∧ ((calculate_service_status due now).2 < 0 →
        (calculate_service_status due now).1 = "OVERDUE")
    ∧ (0 ≤ (calculate_service_status due now).2 ∧ (calculate_service_status due now).2 ≤ 7 →
        (calculate_service_status due now).1 = "DUE")
    ∧ (7 < (calculate_service_status due now).2 →
        (calculate_service_status due now).1 = "UPCOMING") := by
  dsimp only [calculate_service_status]
  split_ifs with h0 h7 <;> dsimp only <;>
    refine ⟨rfl, ?_, ?_, ?_⟩ <;> intro h <;> first | rfl | (exfalso; omega)

/-- Witness for C1 at a concrete input: due 2024-03-18 12:00:00,
now 2024-03-15 12:00:00 gives day count 3 and status DUE. -/
theorem calculate_service_status_cases_witness :
    (calculate_service_status ⟨2024, 3, 18, 12, 0, 0⟩ ⟨2024, 3, 15, 12, 0, 0⟩).1 = "DUE"
    ∧ (calculate_service_status ⟨2024, 3, 18, 12, 0, 0⟩ ⟨2024, 3, 15, 12, 0, 0⟩).2 = 3 := by
  have h := calculate_service_status_cases ⟨2024, 3, 18, 12, 0, 0⟩ ⟨2024, 3, 15, 12, 0, 0⟩
  exact ⟨h.2.2.1 (by decide), by decide⟩

/-- C2: the status calculator is a deterministic function of the due-date and
current timestamp — equal inputs give equal outputs — and it is total with no
error conditions: the label is always one of OVERDUE, DUE, UPCOMING. -/
theorem calculate_service_status_deterministic (due₁ due₂ now₁ now₂ : DateTime)
    (hdue : due₁ = due₂) (hnow : now₁ = now₂) :
    calculate_service_status due₁ now₁ = calculate_service_status due₂ now₂
    ∧ ((calculate_service_status due₁ now₁).1 = "OVERDUE"
        ∨ (calculate_service_status due₁ now₁).1 = "DUE"
        ∨ (calculate_service_status due₁ now₁).1 = "UPCOMING") := by
  subst hdue hnow
  refine ⟨rfl, ?_⟩
  unfold calculate_service_status
  by_cases h0 : (due₁.toSecs - now₁.toSecs).fdiv 86400 < 0
  · simp [h0]
  · by_cases h7 : (due₁.toSecs - now₁.toSecs).fdiv 86400 ≤ 7
    · simp [h0, h7]
    · simp [h0, h7]

/-- Witness for C2 at a concrete input. -/
theorem calculate_service_status_deterministic_witness :
    calculate_service_status ⟨2024, 1, 1, 0, 0, 0⟩ ⟨2024, 1, 5, 6, 0, 0⟩
      = calculate_service_status ⟨2024, 1, 1, 0, 0, 0⟩ ⟨2024, 1, 5, 6, 0, 0⟩
    ∧ ((calculate_service_status ⟨2024, 1, 1, 0, 0, 0⟩ ⟨2024, 1, 5, 6, 0, 0⟩).1 = "OVERDUE"
        ∨ (calculate_service_status ⟨2024, 1, 1, 0, 0, 0⟩ ⟨2024, 1, 5, 6, 0, 0⟩).1 = "DUE"
        ∨ (calculate_service_status ⟨2024, 1, 1, 0, 0, 0⟩ ⟨2024, 1, 5, 6, 0, 0⟩).1 = "UPCOMING") :=
  calculate_service_status_deterministic _ _ _ _ rfl rfl

/-- C6: for every due-date strictly earlier than the current timestamp, by any
positive amount even below one day, the status is OVERDUE and the day count is
strictly negative. -/
theorem calculate_service_status_past_overdue (due now : DateTime)
    (h : due.toSecs < now.toSecs) :
    (calculate_service_status due now).1 = "OVERDUE"
    ∧ (calculate_service_status due now).2 < 0 := by
  have hneg : (due.toSecs - now.toSecs).fdiv 86400 < 0 := by
    rw [Int.fdiv_eq_ediv _ (by omega)]
    exact Int.ediv_neg' (by omega) (by omega)
  dsimp only [calculate_service_status]
  rw [if_pos hneg]
  exact ⟨rfl, hneg⟩

/-- Witness for C6: one second in the past is already OVERDUE with a negative
day count. -/
theorem calculate_service_status_past_overdue_witness :
    (⟨2024, 6, 1, 11, 59, 59⟩ : DateTime).toSecs < (⟨2024, 6, 1, 12, 0, 0⟩ : DateTime).toSecs
    ∧ (calculate_service_status ⟨2024, 6, 1, 11, 59, 59⟩ ⟨2024, 6, 1, 12, 0, 0⟩).1 = "OVERDUE"
    ∧ (calculate_service_status ⟨2024, 6, 1, 11, 59, 59⟩ ⟨2024, 6, 1, 12, 0, 0⟩).2 < 0 := by
  refine ⟨by decide, ?_⟩
  have h := calculate_service_status_past_overdue
    ⟨2024, 6, 1, 11, 59, 59⟩ ⟨2024, 6, 1, 12, 0, 0⟩ (by decide)
  exact h

/-- Characters that force quoting never occur in a field `csv.writer` left
unquoted, so the parser just accumulates them. -/
theorem foldl_step_plain (cs : List Char) : ∀ st : PState, st.mode = .plain →
    (∀ c ∈ cs, c ≠ ',' ∧ c ≠ '"' ∧ c ≠ '\r' ∧ c ≠ '\n') →
    cs.foldl step st = { st with field := cs.reverse ++ st.field } := by
  induction cs with
  | nil => intro st _ _; simp
  | cons c cs ih =>
    intro st hm hc
    obtain ⟨h1, h2, h3, h4⟩ := hc c (List.mem_cons_self c cs)
    have hstep : step st c = { st with field := c :: st.field } := by
      cases st with
      | mk rows cur field mode =>
        dsimp only at hm
        subst hm
        simp [step, stepPlain, h1, h2, h3, h4]
    rw [List.foldl_cons, hstep,
      ih { st with field := c :: st.field } hm
        (fun d hd => hc d (List.mem_cons_of_mem c hd))]
    simp

/-- Inside a quoted field the parser undoes the quote doubling. -/
theorem foldl_step_quoted (cs : List Char) : ∀ st : PState, st.mode = .quoted →
    (escapeQuotes cs).foldl step st
      = { st with field := cs.reverse ++ st.field, mode := .quoted } := by
  induction cs with
  | nil =>
    intro st hm
    cases st with
    | mk rows cur field mode =>
      dsimp only at hm
      subst hm
      simp [escapeQuotes]
  | cons c cs ih =>
    intro st hm
    by_cases hq : c = '"'
    · subst hq
      have h1 : step st '"' = { st with mode := .qquote } := by
        cases st with
        | mk rows cur field mode =>
          dsimp only at hm
          subst hm
          simp [step]
      have h2 : step { st with mode := PMode.qquote } '"'
          = { st with field := '"' :: st.field, mode := .quoted } := by
        cases st with
        | mk rows cur field mode => simp [step]
      rw [show escapeQuotes ('"' :: cs) = '"' :: '"' :: escapeQuotes cs from by
        simp [escapeQuotes]]
      rw [List.foldl_cons, List.foldl_cons, h1, h2, ih _ rfl]
      cases st with
      | mk rows cur field mode => simp
    · have h1 : step st c = { st with field := c :: st.field } := by
        cases st with
        | mk rows cur field mode =>
          dsimp only at hm
          subst hm
          simp [step, hq]
      rw [show escapeQuotes (c :: cs) = c :: escapeQuotes cs from by
        simp [escapeQuotes, hq]]
      rw [List.foldl_cons, h1, ih { st with field := c :: st.field } hm]
      simp

/-- Parsing one encoded field recovers the original characters; the parser
ends in plain mode (unquoted field) or just after a closing quote. -/
theorem foldl_encodeField (f : String) : ∀ st : PState, st.mode = .plain →
    st.field = [] →
    ∃ m, (m = PMode.plain ∨ m = PMode.qquote) ∧
      (encodeField f).data.foldl step st
        = { st with mode := m, field := f.data.reverse } := by
  intro st hm hf
  cases st with
  | mk rows cur field mode =>
    dsimp only at hm hf
    subst hm
    subst hf
    by_cases hq : needsQuote f
    · refine ⟨.qquote, Or.inr rfl, ?_⟩
      have hdata : (encodeField f).data = '"' :: (escapeQuotes f.data ++ ['"']) := by
        simp [encodeField, hq, String.data_append]
      have h1 : step ⟨rows, cur, [], .plain⟩ '"' = ⟨rows, cur, [], .quoted⟩ := by
        simp [step, stepPlain]
      rw [hdata, List.foldl_cons, h1, List.foldl_append,
        foldl_step_quoted f.data _ rfl]
      simp [step]
    · refine ⟨.plain, Or.inl rfl, ?_⟩
      have hchars : ∀ c ∈ f.data, c ≠ ',' ∧ c ≠ '"' ∧ c ≠ '\r' ∧ c ≠ '\n' := by
        intro c hc
        have h := hq
        simp only [needsQuote, List.any_eq_true, Bool.or_eq_true, beq_iff_eq] at h
        push_neg at h
        obtain ⟨⟨⟨ha, hb⟩, hr⟩, hn⟩ := h c hc
        exact ⟨ha, hb, hr, hn⟩
      have henc : encodeField f = f := by simp [encodeField, hq]
      rw [henc, foldl_step_plain f.data _ rfl hchars]
      simp

/-- After a completed field, a delimiter ends the field and a carriage
return begins the row terminator, from either post-field mode. -/
theorem step_after_field (st : PState) (m : PMode) (fv : List Char)
    (hm : m = PMode.plain ∨ m = PMode.qquote) :
    step { st with mode := m, field := fv } ','
      = { st with mode := .plain, field := [], cur := String.mk fv.reverse :: st.cur }
    ∧ step { st with mode := m, field := fv } '\r'
      = { st with mode := .cr, field := fv } := by
  cases st with
  | mk rows cur field mode =>
    rcases hm with h | h <;> subst h <;>
      exact ⟨by simp [step, stepPlain, pushField], by simp [step, stepPlain]⟩

/-- A line feed after a carriage return emits the pending row. -/
theorem step_cr_lf (st : PState) (fv : List Char) :
    step { st with mode := .cr, field := fv } '\n'
      = { st with
          rows := st.rows ++ [(String.mk fv.reverse :: st.cur).reverse],
          cur := [], field := [], mode := .plain } := by
  cases st with
  | mk rows cur field mode => simp [step, pushRow]

/-- Parsing one serialized row emits exactly that row and returns to a clean
state. -/
theorem foldl_csvLine (fields : List String) : ∀ st : PState, fields ≠ [] →
    st.mode = .plain → st.field = [] →
    (csvLine fields).data.foldl step st
      = { st with
          rows := st.rows ++ [st.cur.reverse ++ fields],
          cur := [], field := [], mode := .plain } := by
  induction fields with
  | nil => intro st h _ _; exact absurd rfl h
  | cons f rest ih =>
    intro st _ hm hf
    cases rest with
    | nil =>
      have hdata : (csvLine [f]).data = (encodeField f).data ++ ['\r', '\n'] := by
        simp [csvLine, joinEncoded, String.data_append]
      obtain ⟨m, hm2, heq⟩ := foldl_encodeField f st hm hf
      rw [hdata, List.foldl_append, heq, List.foldl_cons,
        (step_after_field st m f.data.reverse hm2).2, List.foldl_cons,
        step_cr_lf st f.data.reverse]
      simp

    | cons g fs =>
      have hdata : (csvLine (f :: g :: fs)).data
          = (encodeField f).data ++ (',' :: (csvLine (g :: fs)).data) := by
        simp [csvLine, joinEncoded, String.data_append]
      obtain ⟨m, hm2, heq⟩ := foldl_encodeField f st hm hf
      rw [hdata, List.foldl_append, heq, List.foldl_cons,
        (step_after_field st m f.data.reverse hm2).1,
        ih _ (by simp) rfl rfl]
      simp

/-- Parsing the serialized body emits one row per record, in input order. -/
theorem foldl_csvBody (records : List ServiceRecord) (now : DateTime) :
    ∀ st : PState, st.mode = .plain → st.field = [] → st.cur = [] →
    (csvBody records now).data.foldl step st
      = { st with
          rows := st.rows ++ records.map (fun r => recordRowFields r now),
          cur := [], field := [], mode := .plain } := by
  induction records with
  | nil =>
    intro st hm hf hc
    cases st with
    | mk rows cur field mode =>
      dsimp only at hm hf hc
      subst hm; subst hf; subst hc
      simp [csvBody]
  | cons r rs ih =>
    intro st hm hf hc
    have hdata : (csvBody (r :: rs) now).data
        = (csvLine (recordRowFields r now)).data ++ (csvBody rs now).data := by
      simp [csvBody, String.data_append]
    rw [hdata, List.foldl_append,
      foldl_csvLine _ st (by simp [recordRowFields]) hm hf,
      ih _ rfl rfl rfl]
    simp [hc]

/-- Parsing the full generated CSV yields the header row followed by one row
of fields per record, in input order. -/
theorem parseCSV_generate_csv_data (records : List ServiceRecord)
    (now : DateTime) :
    parseCSV (generate_csv_data records now)
      = csvHeaderFields :: records.map (fun r => recordRowFields r now) := by
  unfold parseCSV generate_csv_data
  rw [String.data_append, List.foldl_append,
    foldl_csvLine csvHeaderFields _ (by simp [csvHeaderFields]) rfl rfl,
    foldl_csvBody records now _ rfl rfl rfl]
  simp [finalize]

/-- C4: the generated CSV parses to the fixed header row of ten column
names, followed by exactly one row per input record in input order, with the
service and next-due dates rendered by `strftime("%Y-%m-%d %H:%M:%S")` and
missing notes rendered as the empty field rather than any null literal. -/
theorem generate_csv_data_spec (service_records : List ServiceRecord)
    (now : DateTime) :
    parseCSV (generate_csv_data service_records now)
      = ["Service ID", "Vehicle Number", "Owner Name", "Model", "Service Type",
         "Service Date", "Next Service Date", "Status", "Days Until Due", "Notes"]
        :: service_records.map (fun record =>
          [toString record.id,
           record.vehicle.vehicle_number,
           record.vehicle.owner_name,
           record.vehicle.model,
           record.service_type.name,
           formatDateTime record.service_date,
           formatDateTime record.next_service_date,
           (calculate_service_status record.next_service_date now).1,
           toString (calculate_service_status record.next_service_date now).2,
           record.notes.getD ""]) := by
  rw [parseCSV_generate_csv_data]
  rfl

/-- C5: serialize-then-parse round-trip — parsing the generated CSV text
recovers exactly one data row per input record (plus the header), and the
data rows appear in the same order as the input sequence. -/
theorem generate_csv_data_roundtrip (service_records : List ServiceRecord)
    (now : DateTime) :
    (parseCSV (generate_csv_data service_records now)).length
      = service_records.length + 1
    ∧ List.drop 1 (parseCSV (generate_csv_data service_records now))
      = service_records.map (fun record => recordRowFields record now) := by
  rw [parseCSV_generate_csv_data]
  simp

/-- C7: the detail view's `next_service_date` is the source record's stored
value unchanged, and replacing the record's ServiceType by one with any other
interval leaves that output field identical — it is never recomputed from the
interval. -/
theorem build_service_detail_response_next_unchanged
    (record : ServiceRecord) (now : DateTime) (newInterval : Int) :
    (build_service_detail_response record now).next_service_date
      = record.next_service_date
    ∧ (build_service_detail_response
        { record with service_type := { record.service_type with interval_days := newInterval } }
        now).next_service_date
      = record.next_service_date :=
  ⟨rfl, rfl⟩

/-- C8: the history aggregator returns the vehicle's public fields via
`VehicleResponse.from_orm` together with one detail view per input record,
in input order; in particular, for an empty record list the output record
list is empty while the vehicle fields are still populated. -/
theorem build_service_history_spec (vehicle : Vehicle)
    (service_records : List ServiceRecord) (now : DateTime) :
    (build_service_history vehicle service_records now).service_records
      = service_records.map (fun record => build_service_detail_response record now)
    ∧ (build_service_history vehicle service_records now).vehicle
      = VehicleResponse.from_orm vehicle
    ∧ (service_records = [] →
        (build_service_history vehicle service_records now).service_records = []) := by
  refine ⟨rfl, rfl, ?_⟩
  intro h
  subst h
  rfl

/-- Witness for C8's empty-history conjunct at a concrete vehicle. -/
theorem build_service_history_spec_witness :
    (build_service_history ⟨1, "KA-01", "A. Rao", "Sedan", ⟨2024, 1, 1, 0, 0, 0⟩⟩
        [] ⟨2024, 6, 1, 0, 0, 0⟩).service_records = []
    ∧ (build_service_history ⟨1, "KA-01", "A. Rao", "Sedan", ⟨2024, 1, 1, 0, 0, 0⟩⟩
        [] ⟨2024, 6, 1, 0, 0, 0⟩).vehicle
      = VehicleResponse.from_orm ⟨1, "KA-01", "A. Rao", "Sedan", ⟨2024, 1, 1, 0, 0, 0⟩⟩ :=
  ⟨(build_service_history_spec _ [] _).2.2 rfl,
   (build_service_history_spec ⟨1, "KA-01", "A. Rao", "Sedan", ⟨2024, 1, 1, 0, 0, 0⟩⟩
      [] ⟨2024, 6, 1, 0, 0, 0⟩).2.1⟩

/-- C3: a record created by `create_service_record` stores exactly
`service_date + interval_days` days for the ServiceType referenced at
creation time, the record is persisted, and any later change to any
ServiceType's interval leaves the stored service records — hence the stored
next-due date — untouched. -/
theorem create_service_record_next_date (db : Store) (sc : ServiceRecordCreate)
    (st : ServiceType) (h : get_service_type db sc.service_type_id = some st) :
    ∃ r db', create_service_record db sc = .ok (r, db')
      ∧ r.next_service_date = sc.service_date.addDays st.interval_days
      ∧ r ∈ db'.service_records
      ∧ ∀ tid newInterval,
          (update_service_type_interval db' tid newInterval).service_records
            = db'.service_records := by
  unfold create_service_record
  rw [h]
  exact ⟨_, _, rfl, rfl, by simp, fun _ _ => rfl⟩

/-- Witness for C3: a 90-day oil-change interval applied to a concrete
service date. -/
theorem create_service_record_next_date_witness :
    ∃ r db',
      create_service_record ⟨[], [⟨5, "Oil Change", 90⟩], [], 1⟩
          ⟨1, 5, ⟨2024, 6, 1, 12, 0, 0⟩, none⟩ = .ok (r, db')
      ∧ r.next_service_date = DateTime.addDays ⟨2024, 6, 1, 12, 0, 0⟩ 90
      ∧ r ∈ db'.service_records
      ∧ ∀ tid newInterval,
          (update_service_type_interval db' tid newInterval).service_records
            = db'.service_records :=
  create_service_record_next_date ⟨[], [⟨5, "Oil Change", 90⟩], [], 1⟩
    ⟨1, 5, ⟨2024, 6, 1, 12, 0, 0⟩, none⟩ ⟨5, "Oil Change", 90⟩ rfl

/-- C9: when the referenced ServiceType does not exist,
`create_service_record` rejects the request with an error naming the
offending identifier and the store is unchanged; when it exists, no such
error is raised. -/
theorem create_service_record_missing_type (db : Store)
    (sc : ServiceRecordCreate) :
    (get_service_type db sc.service_type_id = none →
      create_service_record db sc
        = .error ("Service type " ++ toString sc.service_type_id ++ " not found")
      ∧ create_service_record_state db sc = db)
    ∧ (∀ st, get_service_type db sc.service_type_id = some st →
        ∃ r db', create_service_record db sc = .ok (r, db')) := by
  constructor
  · intro h
    have he : create_service_record db sc
        = .error ("Service type " ++ toString sc.service_type_id ++ " not found") := by
      unfold create_service_record
      rw [h]
    refine ⟨he, ?_⟩
    unfold create_service_record_state
    rw [he]
  · intro st h
    unfold create_service_record
    rw [h]
    exact ⟨_, _, rfl⟩

/-- Witness for C9: requesting service type 9 against a store that only
holds service type 5 is rejected with the identifier in the message, and the
store is unchanged. -/
theorem create_service_record_missing_type_witness :
    create_service_record ⟨[], [⟨5, "Oil Change", 90⟩], [], 1⟩
        ⟨1, 9, ⟨2024, 6, 1, 0, 0, 0⟩, none⟩
      = .error "Service type 9 not found"
    ∧ create_service_record_state ⟨[], [⟨5, "Oil Change", 90⟩], [], 1⟩
        ⟨1, 9, ⟨2024, 6, 1, 0, 0, 0⟩, none⟩
      = ⟨[], [⟨5, "Oil Change", 90⟩], [], 1⟩ := by
  have h := (create_service_record_missing_type ⟨[], [⟨5, "Oil Change", 90⟩], [], 1⟩
    ⟨1, 9, ⟨2024, 6, 1, 0, 0, 0⟩, none⟩).1 rfl
  exact ⟨h.1.trans (congrArg Except.error (by decide)), h.2⟩

/-- C10: `get_upcoming_services` returns exactly the stored records whose
next-due date lies in the inclusive window from `now` to
`now + days_ahead` days — a record due exactly now is included, a record due
strictly in the past is not — sorted by next-due date ascending. -/
theorem get_upcoming_services_spec (db : Store) (days_ahead : Int)
    (now : DateTime) :
    (get_upcoming_services db days_ahead now).Perm
      (db.service_records.filter (fun r =>
        decide (now.toSecs ≤ r.next_service_date.toSecs)
          && decide (r.next_service_date.toSecs ≤ (now.addDays days_ahead).toSecs)))
    ∧ (∀ r, r ∈ get_upcoming_services db days_ahead now ↔
        r ∈ db.service_records
        ∧ now.toSecs ≤ r.next_service_date.toSecs
        ∧ r.next_service_date.toSecs ≤ (now.addDays days_ahead).toSecs)
    ∧ (get_upcoming_services db days_ahead now).Sorted
        (fun a b => a.next_service_date.toSecs ≤ b.next_service_date.toSecs) := by
  unfold get_upcoming_services
  refine ⟨List.perm_insertionSort _ _, ?_, List.sorted_insertionSort _ _⟩
  intro r
  rw [List.mem_insertionSort, List.mem_filter]
  simp

end VehicleService
